import Mathlib

/-!
# Verification of the SquareAnimator logic in `src/main.rs`

Shallow embedding of the animator core of the repository: a square whose
position and velocity are `f64` values (modelled as `ℚ`), moved by keyboard
nudges, recentred by mouse clicks, and animated by a per-frame Euler step
with boundary bounce.  Window/surface plumbing (winit, softbuffer) is out of
scope; canvas dimensions are passed in as the host would report them.
-/

/-- The mutable animator fields of `GraphicsState` (window/surface handles
are host plumbing and carry no animator state). `f64` values are modelled
as rationals. -/
structure AnimState where
  square_pos_x : ℚ
  square_pos_y : ℚ
  velocity_x : ℚ
  velocity_y : ℚ
  cursor_x : ℚ
  cursor_y : ℚ
  deriving DecidableEq, Repr

/-- `NonZeroU32::new(dim.max(1)).unwrap()`: the effective canvas dimension,
at least 1. -/
def effDim (n : ℕ) : ℕ := max n 1

/-- `width * 10 / 100` in `usize` arithmetic: the square side derived from a
canvas dimension (applied to width and height alike). -/
def sizeFrac (n : ℕ) : ℕ := effDim n * 10 / 100

/-- Rust `as usize` applied to an `f64`: truncate toward zero, saturating at
0 for negative inputs (the values in this program never approach
`usize::MAX`, so upper saturation is not modelled). For `q ≥ 0` truncation
coincides with the floor, and every negative input lands on 0, which
`⌊q⌋.toNat` also gives. -/
def f64AsUsize (q : ℚ) : ℕ := ⌊q⌋.toNat

/-- `f64::clamp(lo, hi)` (for `lo ≤ hi`, the only way it is called here). -/
def rustClamp (x lo hi : ℚ) : ℚ := min (max x lo) hi

/-- `GraphicsState::max_square_pos`: `(width - width*0.1, height - height*0.1)`
computed in `f64` from the effective canvas dimensions. -/
def max_square_pos (w h : ℕ) : ℚ × ℚ :=
  let width : ℚ := (effDim w : ℚ)
  let height : ℚ := (effDim h : ℚ)
  let mw := width * (1 / 10)
  let mh := height * (1 / 10)
  (width - mw, height - mh)

/-- `GraphicsState::new` restricted to its animator fields: integer-derived
square size, square centred by `usize` arithmetic, velocity `(100, 100)`,
cursor at the origin. -/
def graphicsStateNew (w h : ℕ) : AnimState :=
  let width := effDim w
  let height := effDim h
  let mw := width * 10 / 100
  let mh := height * 10 / 100
  { square_pos_x := ((width / 2 - mw / 2 : ℕ) : ℚ)
    square_pos_y := ((height / 2 - mh / 2 : ℕ) : ℚ)
    velocity_x := 100
    velocity_y := 100
    cursor_x := 0
    cursor_y := 0 }

/-- `KeyW` handler: `pos_y -= 20; pos_y = pos_y.max(0)`; requests a redraw. -/
def pressKeyW (s : AnimState) : AnimState × Bool :=
  ({ s with square_pos_y := max (s.square_pos_y - 20) 0 }, true)

/-- `KeyA` handler: `pos_x -= 20; pos_x = pos_x.max(0)`; requests a redraw. -/
def pressKeyA (s : AnimState) : AnimState × Bool :=
  ({ s with square_pos_x := max (s.square_pos_x - 20) 0 }, true)

/-- `KeyS` handler: `pos_y += 20; pos_y = pos_y.min(max_pos_y)`; requests a
redraw. -/
def pressKeyS (w h : ℕ) (s : AnimState) : AnimState × Bool :=
  let max_pos_y := (max_square_pos w h).2
  ({ s with square_pos_y := min (s.square_pos_y + 20) max_pos_y }, true)

/-- `KeyD` handler: `pos_x += 20; pos_x = pos_x.min(max_pos_x)`; requests a
redraw. -/
def pressKeyD (w h : ℕ) (s : AnimState) : AnimState × Bool :=
  let max_pos_x := (max_square_pos w h).1
  ({ s with square_pos_x := min (s.square_pos_x + 20) max_pos_x }, true)

/-- `MouseButton::Left` press handler: truncate the tracked cursor to
`usize`, recompute the integer square size from the current canvas, and set
`position = cursor_trunc - size/2` with no clamping; requests a redraw. -/
def mouseLeftClick (w h : ℕ) (s : AnimState) : AnimState × Bool :=
  let x := f64AsUsize s.cursor_x
  let y := f64AsUsize s.cursor_y
  let width := effDim w
  let height := effDim h
  let mw := width * 10 / 100
  let mh := height * 10 / 100
  ({ s with square_pos_x := (x : ℚ) - (mw : ℚ) / 2
            square_pos_y := (y : ℚ) - (mh : ℚ) / 2 }, true)

/-- `CursorMoved` handler: record the cursor position; no redraw request. -/
def cursorMovedEvent (px py : ℚ) (s : AnimState) : AnimState × Bool :=
  ({ s with cursor_x := px, cursor_y := py }, false)

/-- Position after the Euler step `pos += velocity * dt`, x axis. -/
def renderIntegratedX (dt : ℚ) (s : AnimState) : ℚ :=
  s.square_pos_x + s.velocity_x * dt

/-- Position after the Euler step `pos += velocity * dt`, y axis. -/
def renderIntegratedY (dt : ℚ) (s : AnimState) : ℚ :=
  s.square_pos_y + s.velocity_y * dt

/-- `square_start_x = (square_pos_x as usize).min(width)` after integration. -/
def squareStartX (w : ℕ) (dt : ℚ) (s : AnimState) : ℕ :=
  min (f64AsUsize (renderIntegratedX dt s)) (effDim w)

/-- `square_end_x = (square_start_x + mw).min(width)`. -/
def squareEndX (w : ℕ) (dt : ℚ) (s : AnimState) : ℕ :=
  min (squareStartX w dt s + sizeFrac w) (effDim w)

/-- `square_start_y = (square_pos_y as usize).min(height)` after integration. -/
def squareStartY (h : ℕ) (dt : ℚ) (s : AnimState) : ℕ :=
  min (f64AsUsize (renderIntegratedY dt s)) (effDim h)

/-- `square_end_y = (square_start_y + mh).min(height)`. -/
def squareEndY (h : ℕ) (dt : ℚ) (s : AnimState) : ℕ :=
  min (squareStartY h dt s + sizeFrac h) (effDim h)

/-- `GraphicsState::render` restricted to its state update: Euler-integrate
the position, then per axis, if the rasterized far edge reaches the canvas
edge or the rasterized start is 0, negate that velocity component and clamp
the position into `[0, max_square_pos]`. Returns the updated state and the
(unconditional) redraw request. The pixel writes are modelled separately by
the `squareStart/End` functions above, which `render` shares. -/
def render (w h : ℕ) (dt : ℚ) (s : AnimState) : AnimState × Bool :=
  let max_pos_x := (max_square_pos w h).1
  let max_pos_y := (max_square_pos w h).2
  let width := effDim w
  let height := effDim h
  let px := renderIntegratedX dt s
  let py := renderIntegratedY dt s
  let px' := if width ≤ squareEndX w dt s ∨ squareStartX w dt s ≤ 0 then
      rustClamp px 0 max_pos_x
    else px
  let vx' := if width ≤ squareEndX w dt s ∨ squareStartX w dt s ≤ 0 then
      -s.velocity_x
    else s.velocity_x
  let py' := if height ≤ squareEndY h dt s ∨ squareStartY h dt s ≤ 0 then
      rustClamp py 0 max_pos_y
    else py
  let vy' := if height ≤ squareEndY h dt s ∨ squareStartY h dt s ≤ 0 then
      -s.velocity_y
    else s.velocity_y
  ({ s with square_pos_x := px', square_pos_y := py',
            velocity_x := vx', velocity_y := vy' }, true)

/-- The discrete stimuli `App::window_event` reacts to with state changes,
plus the animation frame (`RedrawRequested → render`). -/
inductive Ev where
  | keyW : Ev
  | keyA : Ev
  | keyS : Ev
  | keyD : Ev
  | mouseLeft : Ev
  | cursorMoved : ℚ → ℚ → Ev
  | frame : ℚ → Ev
  deriving DecidableEq, Repr

/-- Dispatch one event against the animator state, as `App::window_event`
does; the `Bool` records whether the handler requested a redraw. -/
def step (w h : ℕ) (e : Ev) (s : AnimState) : AnimState × Bool :=
  match e with
  | .keyW => pressKeyW s
  | .keyA => pressKeyA s
  | .keyS => pressKeyS w h s
  | .keyD => pressKeyD w h s
  | .mouseLeft => mouseLeftClick w h s
  | .cursorMoved px py => cursorMovedEvent px py s
  | .frame dt => render w h dt s

/-- The state reached from initialization by a sequence of events on a
`w × h` canvas. -/
def runEvents (w h : ℕ) (evs : List Ev) : AnimState :=
  evs.foldl (fun s e => (step w h e s).1) (graphicsStateNew w h)

/-! ## Basic facts about the embedded arithmetic -/

lemma one_le_effDim (n : ℕ) : 1 ≤ effDim n := le_max_right n 1

lemma sizeFrac_le_effDim (n : ℕ) : sizeFrac n ≤ effDim n := by
  unfold sizeFrac
  omega

lemma sizeFrac_cast_le (n : ℕ) : (sizeFrac n : ℚ) ≤ (effDim n : ℚ) * (1 / 10) := by
  unfold sizeFrac
  have h := Nat.cast_div_le (α := ℚ) (m := effDim n * 10) (n := 100)
  push_cast at h
  linarith

lemma max_square_pos_fst (w h : ℕ) :
    (max_square_pos w h).1 = (effDim w : ℚ) - (effDim w : ℚ) * (1 / 10) := rfl

lemma max_square_pos_snd (w h : ℕ) :
    (max_square_pos w h).2 = (effDim h : ℚ) - (effDim h : ℚ) * (1 / 10) := rfl

lemma max_square_pos_fst_nonneg (w h : ℕ) : 0 ≤ (max_square_pos w h).1 := by
  rw [max_square_pos_fst]
  have h0 : (0 : ℚ) ≤ (effDim w : ℚ) := Nat.cast_nonneg _
  linarith

lemma max_square_pos_snd_nonneg (w h : ℕ) : 0 ≤ (max_square_pos w h).2 := by
  rw [max_square_pos_snd]
  have h0 : (0 : ℚ) ≤ (effDim h : ℚ) := Nat.cast_nonneg _
  linarith

lemma max_square_pos_fst_add_sizeFrac (w h : ℕ) :
    (max_square_pos w h).1 + (sizeFrac w : ℚ) ≤ (effDim w : ℚ) := by
  rw [max_square_pos_fst]
  have := sizeFrac_cast_le w
  linarith

lemma max_square_pos_snd_add_sizeFrac (w h : ℕ) :
    (max_square_pos w h).2 + (sizeFrac h : ℚ) ≤ (effDim h : ℚ) := by
  rw [max_square_pos_snd]
  have := sizeFrac_cast_le h
  linarith

lemma one_le_of_f64AsUsize_pos {q : ℚ} (h : 0 < f64AsUsize q) : 1 ≤ q := by
  unfold f64AsUsize at h
  have h1 : (0 : ℤ) < ⌊q⌋ := by omega
  have h2 : (1 : ℤ) ≤ ⌊q⌋ := h1
  exact_mod_cast Int.le_floor.mp h2

lemma lt_f64AsUsize_add_one (q : ℚ) : q < (f64AsUsize q : ℚ) + 1 := by
  unfold f64AsUsize
  rcases le_or_lt 0 ⌊q⌋ with h | h
  · have hfloor : ((⌊q⌋.toNat : ℕ) : ℚ) = ((⌊q⌋ : ℤ) : ℚ) := by
      exact_mod_cast Int.toNat_of_nonneg h
    have h2 := Int.lt_floor_add_one q
    rw [hfloor]
    exact h2
  · have hzero : ⌊q⌋.toNat = 0 := by omega
    have h2 := Int.lt_floor_add_one q
    have h3 : ((⌊q⌋ : ℤ) : ℚ) + 1 ≤ 1 := by
      have : ((⌊q⌋ : ℤ) : ℚ) ≤ 0 := by exact_mod_cast h.le
      linarith
    rw [hzero]
    push_cast
    linarith

lemma le_f64AsUsize {n : ℕ} {q : ℚ} (h : (n : ℚ) ≤ q) : n ≤ f64AsUsize q := by
  unfold f64AsUsize
  have h1 : (n : ℤ) ≤ ⌊q⌋ := Int.le_floor.mpr (by exact_mod_cast h)
  omega

/-! ## Projections of `render` -/

lemma render_pos_x (w h : ℕ) (dt : ℚ) (s : AnimState) :
    (render w h dt s).1.square_pos_x =
      if effDim w ≤ squareEndX w dt s ∨ squareStartX w dt s ≤ 0 then
        rustClamp (renderIntegratedX dt s) 0 (max_square_pos w h).1
      else renderIntegratedX dt s := rfl

lemma render_pos_y (w h : ℕ) (dt : ℚ) (s : AnimState) :
    (render w h dt s).1.square_pos_y =
      if effDim h ≤ squareEndY h dt s ∨ squareStartY h dt s ≤ 0 then
        rustClamp (renderIntegratedY dt s) 0 (max_square_pos w h).2
      else renderIntegratedY dt s := rfl

lemma render_vel_x (w h : ℕ) (dt : ℚ) (s : AnimState) :
    (render w h dt s).1.velocity_x =
      if effDim w ≤ squareEndX w dt s ∨ squareStartX w dt s ≤ 0 then
        -s.velocity_x
      else s.velocity_x := rfl

lemma render_vel_y (w h : ℕ) (dt : ℚ) (s : AnimState) :
    (render w h dt s).1.velocity_y =
      if effDim h ≤ squareEndY h dt s ∨ squareStartY h dt s ≤ 0 then
        -s.velocity_y
      else s.velocity_y := rfl

/-! ## The in-bounds invariant (rasterized integer square size) -/

/-- Spatial invariant along one axis, with the square side measured by
the integer pixel size `sizeFrac`. -/
def InvAxis (n : ℕ) (pos : ℚ) : Prop :=
  0 ≤ pos ∧ pos + (sizeFrac n : ℚ) ≤ (effDim n : ℚ)

/-- Both-axes spatial invariant of the animator state. -/
def PosInv (w h : ℕ) (s : AnimState) : Prop :=
  InvAxis w s.square_pos_x ∧ InvAxis h s.square_pos_y

lemma invAxis_new (n : ℕ) :
    InvAxis n ((effDim n / 2 - effDim n * 10 / 100 / 2 : ℕ) : ℚ) := by
  constructor
  · exact Nat.cast_nonneg _
  · have hle : effDim n * 10 / 100 ≤ effDim n := sizeFrac_le_effDim n
    have hnat : (effDim n / 2 - effDim n * 10 / 100 / 2) + effDim n * 10 / 100 ≤
        effDim n := by omega
    have : ((effDim n / 2 - effDim n * 10 / 100 / 2 : ℕ) : ℚ) +
        ((effDim n * 10 / 100 : ℕ) : ℚ) ≤ ((effDim n : ℕ) : ℚ) := by
      exact_mod_cast hnat
    exact this

lemma inv_new (w h : ℕ) : PosInv w h (graphicsStateNew w h) :=
  ⟨invAxis_new w, invAxis_new h⟩

lemma inv_pressKeyW {w h : ℕ} {s : AnimState} (hs : PosInv w h s) :
    PosInv w h (pressKeyW s).1 := by
  refine ⟨hs.1, ?_, ?_⟩
  · exact le_max_right _ _
  · show max (s.square_pos_y - 20) 0 + (sizeFrac h : ℚ) ≤ (effDim h : ℚ)
    have h1 := hs.2.2
    have h2 : (sizeFrac h : ℚ) ≤ (effDim h : ℚ) := by
      exact_mod_cast sizeFrac_le_effDim h
    rcases max_choice (s.square_pos_y - 20) 0 with he | he <;> rw [he] <;> linarith

lemma inv_pressKeyA {w h : ℕ} {s : AnimState} (hs : PosInv w h s) :
    PosInv w h (pressKeyA s).1 := by
  refine ⟨⟨?_, ?_⟩, hs.2⟩
  · exact le_max_right _ _
  · show max (s.square_pos_x - 20) 0 + (sizeFrac w : ℚ) ≤ (effDim w : ℚ)
    have h1 := hs.1.2
    have h2 : (sizeFrac w : ℚ) ≤ (effDim w : ℚ) := by
      exact_mod_cast sizeFrac_le_effDim w
    rcases max_choice (s.square_pos_x - 20) 0 with he | he <;> rw [he] <;> linarith

lemma inv_pressKeyS {w h : ℕ} {s : AnimState} (hs : PosInv w h s) :
    PosInv w h (pressKeyS w h s).1 := by
  refine ⟨hs.1, ?_, ?_⟩
  · show (0 : ℚ) ≤ min (s.square_pos_y + 20) (max_square_pos w h).2
    exact le_min (by linarith [hs.2.1]) (max_square_pos_snd_nonneg w h)
  · show min (s.square_pos_y + 20) (max_square_pos w h).2 + (sizeFrac h : ℚ) ≤
      (effDim h : ℚ)
    have h1 := max_square_pos_snd_add_sizeFrac w h
    have h2 := min_le_right (s.square_pos_y + 20) (max_square_pos w h).2
    linarith

lemma inv_pressKeyD {w h : ℕ} {s : AnimState} (hs : PosInv w h s) :
    PosInv w h (pressKeyD w h s).1 := by
  refine ⟨⟨?_, ?_⟩, hs.2⟩
  · show (0 : ℚ) ≤ min (s.square_pos_x + 20) (max_square_pos w h).1
    exact le_min (by linarith [hs.1.1]) (max_square_pos_fst_nonneg w h)
  · show min (s.square_pos_x + 20) (max_square_pos w h).1 + (sizeFrac w : ℚ) ≤
      (effDim w : ℚ)
    have h1 := max_square_pos_fst_add_sizeFrac w h
    have h2 := min_le_right (s.square_pos_x + 20) (max_square_pos w h).1
    linarith

lemma invAxis_render_x (w h : ℕ) (dt : ℚ) (s : AnimState) :
    InvAxis w (render w h dt s).1.square_pos_x := by
  rw [InvAxis, render_pos_x]
  by_cases hc : effDim w ≤ squareEndX w dt s ∨ squareStartX w dt s ≤ 0
  · rw [if_pos hc]
    unfold rustClamp
    constructor
    · exact le_min (le_max_right _ _) (max_square_pos_fst_nonneg w h)
    · have h1 := max_square_pos_fst_add_sizeFrac w h
      have h2 := min_le_right (max (renderIntegratedX dt s) 0) (max_square_pos w h).1
      linarith
  · rw [if_neg hc]
    push_neg at hc
    obtain ⟨hend, hstart⟩ := hc
    have hstart' : 0 < squareStartX w dt s := Nat.pos_of_ne_zero (by omega)
    have ht : 0 < f64AsUsize (renderIntegratedX dt s) := by
      have := lt_min_iff.mp (by
        simpa [squareStartX] using hstart' :
        0 < min (f64AsUsize (renderIntegratedX dt s)) (effDim w))
      exact this.1
    have hpos : (1 : ℚ) ≤ renderIntegratedX dt s := one_le_of_f64AsUsize_pos ht
    constructor
    · linarith
    · have hsum : squareStartX w dt s + sizeFrac w < effDim w := by
        have := hend
        unfold squareEndX at this
        omega
      have hmin : squareStartX w dt s = f64AsUsize (renderIntegratedX dt s) := by
        unfold squareStartX at hsum ⊢
        omega
      have hlt := lt_f64AsUsize_add_one (renderIntegratedX dt s)
      have hcast : (f64AsUsize (renderIntegratedX dt s) : ℚ) + 1 +
          (sizeFrac w : ℚ) ≤ (effDim w : ℚ) := by
        rw [hmin] at hsum
        have hn : f64AsUsize (renderIntegratedX dt s) + 1 + sizeFrac w ≤
            effDim w := by omega
        exact_mod_cast hn
      linarith

lemma invAxis_render_y (w h : ℕ) (dt : ℚ) (s : AnimState) :
    InvAxis h (render w h dt s).1.square_pos_y := by
  rw [InvAxis, render_pos_y]
  by_cases hc : effDim h ≤ squareEndY h dt s ∨ squareStartY h dt s ≤ 0
  · rw [if_pos hc]
    unfold rustClamp
    constructor
    · exact le_min (le_max_right _ _) (max_square_pos_snd_nonneg w h)
    · have h1 := max_square_pos_snd_add_sizeFrac w h
      have h2 := min_le_right (max (renderIntegratedY dt s) 0) (max_square_pos w h).2
      linarith
  · rw [if_neg hc]
    push_neg at hc
    obtain ⟨hend, hstart⟩ := hc
    have hstart' : 0 < squareStartY h dt s := Nat.pos_of_ne_zero (by omega)
    have ht : 0 < f64AsUsize (renderIntegratedY dt s) := by
      have := lt_min_iff.mp (by
        simpa [squareStartY] using hstart' :
        0 < min (f64AsUsize (renderIntegratedY dt s)) (effDim h))
      exact this.1
    have hpos : (1 : ℚ) ≤ renderIntegratedY dt s := one_le_of_f64AsUsize_pos ht
    constructor
    · linarith
    · have hsum : squareStartY h dt s + sizeFrac h < effDim h := by
        have := hend
        unfold squareEndY at this
        omega
      have hmin : squareStartY h dt s = f64AsUsize (renderIntegratedY dt s) := by
        unfold squareStartY at hsum ⊢
        omega
      have hlt := lt_f64AsUsize_add_one (renderIntegratedY dt s)
      have hcast : (f64AsUsize (renderIntegratedY dt s) : ℚ) + 1 +
          (sizeFrac h : ℚ) ≤ (effDim h : ℚ) := by
        rw [hmin] at hsum
        have hn : f64AsUsize (renderIntegratedY dt s) + 1 + sizeFrac h ≤
            effDim h := by omega
        exact_mod_cast hn
      linarith

lemma inv_render (w h : ℕ) (dt : ℚ) (s : AnimState) :
    PosInv w h (render w h dt s).1 :=
  ⟨invAxis_render_x w h dt s, invAxis_render_y w h dt s⟩

lemma inv_step {w h : ℕ} {s : AnimState} (e : Ev) (he : e ≠ Ev.mouseLeft)
    (hs : PosInv w h s) : PosInv w h (step w h e s).1 := by
  cases e with
  | keyW => exact inv_pressKeyW hs
  | keyA => exact inv_pressKeyA hs
  | keyS => exact inv_pressKeyS hs
  | keyD => exact inv_pressKeyD hs
  | mouseLeft => exact absurd rfl he
  | cursorMoved px py => exact hs
  | frame dt => exact inv_render w h dt s

lemma inv_foldl (w h : ℕ) (evs : List Ev) :
    ∀ s : AnimState, PosInv w h s → (∀ e ∈ evs, e ≠ Ev.mouseLeft) →
      PosInv w h (evs.foldl (fun s e => (step w h e s).1) s) := by
  induction evs with
  | nil => intro s hs _; simpa using hs
  | cons e rest ih =>
      intro s hs hno
      rw [List.foldl_cons]
      exact ih _ (inv_step e (hno e (List.mem_cons_self e rest)) hs)
        (fun e' he' => hno e' (List.mem_cons_of_mem _ he'))

/-! ## C1: position invariant under click-free operation -/

/-- C1 (amended): for every canvas size and every sequence of initialize,
directional key presses, cursor moves and `onFrame` calls — i.e. any
sequence without a primary click — the square satisfies
`0 ≤ position.x` and `position.x + size.w ≤ canvas.width` (and symmetrically
for y, with `size` the rasterized integer side `⌊dim·10/100⌋`) after each
position update, the bound being enforced by clamping; a primary click is
excluded because it applies no clamping and can break the bounds. -/
theorem noclick_position_invariant (w h : ℕ) (evs : List Ev)
    (hno : ∀ e ∈ evs, e ≠ Ev.mouseLeft) :
    0 ≤ (runEvents w h evs).square_pos_x ∧
    (runEvents w h evs).square_pos_x + (sizeFrac w : ℚ) ≤ (effDim w : ℚ) ∧
    0 ≤ (runEvents w h evs).square_pos_y ∧
    (runEvents w h evs).square_pos_y + (sizeFrac h : ℚ) ≤ (effDim h : ℚ) := by
  have hinv := inv_foldl w h evs (graphicsStateNew w h) (inv_new w h) hno
  exact ⟨hinv.1.1, hinv.1.2, hinv.2.1, hinv.2.2⟩

/-- Witness for C1 at canvas 800×600 and the sequence
key-A press, then a frame of one second. -/
theorem noclick_position_invariant_witness :
    0 ≤ (runEvents 800 600 [Ev.keyA, Ev.frame 1]).square_pos_x ∧
    (runEvents 800 600 [Ev.keyA, Ev.frame 1]).square_pos_x +
      (sizeFrac 800 : ℚ) ≤ (effDim 800 : ℚ) ∧
    0 ≤ (runEvents 800 600 [Ev.keyA, Ev.frame 1]).square_pos_y ∧
    (runEvents 800 600 [Ev.keyA, Ev.frame 1]).square_pos_y +
      (sizeFrac 600 : ℚ) ≤ (effDim 600 : ℚ) :=
  noclick_position_invariant 800 600 [Ev.keyA, Ev.frame 1] (by
    intro e he
    simp only [List.mem_cons, List.not_mem_nil, or_false] at he
    rcases he with rfl | rfl <;> simp)

/-- Counterexample to C1 as stated: a primary click with the cursor at the
origin on an 800×600 canvas leaves the square at `position.x = -40 < 0`;
the click applies no clamping. -/
theorem click_breaks_position_invariant :
    ¬ (0 ≤ (runEvents 800 600 [Ev.mouseLeft]).square_pos_x) := by
  have hval : (runEvents 800 600 [Ev.mouseLeft]).square_pos_x = -40 := by
    show (mouseLeftClick 800 600 (graphicsStateNew 800 600)).1.square_pos_x = -40
    show ((f64AsUsize (graphicsStateNew 800 600).cursor_x : ℕ) : ℚ) -
      ((effDim 800 * 10 / 100 : ℕ) : ℚ) / 2 = -40
    norm_num [graphicsStateNew, f64AsUsize, effDim]
  rw [hval]
  norm_num

/-! ## C2: zero elapsed time -/

lemma f64AsUsize_natCast (n : ℕ) : f64AsUsize (n : ℚ) = n := by
  unfold f64AsUsize
  rw [Int.floor_natCast]
  omega

lemma graphicsStateNew_800_600 :
    graphicsStateNew 800 600 =
      { square_pos_x := 360, square_pos_y := 270, velocity_x := 100,
        velocity_y := 100, cursor_x := 0, cursor_y := 0 } := by
  unfold graphicsStateNew effDim
  norm_num

/-- C2 (amended): with `elapsedSeconds = 0` and the square's rasterized
extent strictly inside the canvas on both axes (positive start index, end
index short of the dimension), `onFrame` leaves position and velocity
unchanged; if the extent touches a canvas edge the boundary test fires even
with zero elapsed time and negates that velocity component, so the
restriction cannot be dropped. -/
theorem render_zero_dt_fixed (w h : ℕ) (s : AnimState)
    (hx1 : 0 < squareStartX w 0 s) (hx2 : squareEndX w 0 s < effDim w)
    (hy1 : 0 < squareStartY h 0 s) (hy2 : squareEndY h 0 s < effDim h) :
    (render w h 0 s).1.square_pos_x = s.square_pos_x ∧
    (render w h 0 s).1.square_pos_y = s.square_pos_y ∧
    (render w h 0 s).1.velocity_x = s.velocity_x ∧
    (render w h 0 s).1.velocity_y = s.velocity_y := by
  have hcx : ¬ (effDim w ≤ squareEndX w 0 s ∨ squareStartX w 0 s ≤ 0) := by
    omega
  have hcy : ¬ (effDim h ≤ squareEndY h 0 s ∨ squareStartY h 0 s ≤ 0) := by
    omega
  refine ⟨?_, ?_, ?_, ?_⟩
  · rw [render_pos_x, if_neg hcx]
    unfold renderIntegratedX
    ring
  · rw [render_pos_y, if_neg hcy]
    unfold renderIntegratedY
    ring
  · rw [render_vel_x, if_neg hcx]
  · rw [render_vel_y, if_neg hcy]

/-- Witness for C2 (amended) at the freshly initialized 800×600 state. -/
theorem render_zero_dt_fixed_witness :
    (0 < squareStartX 800 0 (graphicsStateNew 800 600) ∧
     squareEndX 800 0 (graphicsStateNew 800 600) < effDim 800 ∧
     0 < squareStartY 600 0 (graphicsStateNew 800 600) ∧
     squareEndY 600 0 (graphicsStateNew 800 600) < effDim 600) ∧
    (render 800 600 0 (graphicsStateNew 800 600)).1.square_pos_x =
      (graphicsStateNew 800 600).square_pos_x ∧
    (render 800 600 0 (graphicsStateNew 800 600)).1.square_pos_y =
      (graphicsStateNew 800 600).square_pos_y ∧
    (render 800 600 0 (graphicsStateNew 800 600)).1.velocity_x =
      (graphicsStateNew 800 600).velocity_x ∧
    (render 800 600 0 (graphicsStateNew 800 600)).1.velocity_y =
      (graphicsStateNew 800 600).velocity_y := by
  have h1 : squareStartX 800 0 (graphicsStateNew 800 600) = 360 := by
    unfold squareStartX renderIntegratedX
    rw [graphicsStateNew_800_600]
    norm_num [effDim]
    show f64AsUsize ((360 : ℕ) : ℚ) = 360
    rw [f64AsUsize_natCast]
  have h2 : squareEndX 800 0 (graphicsStateNew 800 600) = 440 := by
    unfold squareEndX
    rw [h1]
    norm_num [sizeFrac, effDim]
  have h3 : squareStartY 600 0 (graphicsStateNew 800 600) = 270 := by
    unfold squareStartY renderIntegratedY
    rw [graphicsStateNew_800_600]
    norm_num [effDim]
    show f64AsUsize ((270 : ℕ) : ℚ) = 270
    rw [f64AsUsize_natCast]
  have h4 : squareEndY 600 0 (graphicsStateNew 800 600) = 330 := by
    unfold squareEndY
    rw [h3]
    norm_num [sizeFrac, effDim]
  have hh1 : 0 < squareStartX 800 0 (graphicsStateNew 800 600) := by omega
  have hh2 : squareEndX 800 0 (graphicsStateNew 800 600) < effDim 800 := by
    rw [h2]; norm_num [effDim]
  have hh3 : 0 < squareStartY 600 0 (graphicsStateNew 800 600) := by omega
  have hh4 : squareEndY 600 0 (graphicsStateNew 800 600) < effDim 600 := by
    rw [h4]; norm_num [effDim]
  exact ⟨⟨hh1, hh2, hh3, hh4⟩, render_zero_dt_fixed 800 600 _ hh1 hh2 hh3 hh4⟩

/-- A state whose square sits exactly at the left canvas edge on the x axis
(position 0), with the initial velocity. -/
def touchState : AnimState :=
  { square_pos_x := 0, square_pos_y := 270, velocity_x := 100,
    velocity_y := 100, cursor_x := 0, cursor_y := 0 }

/-- Counterexample to C2 as stated: at `position.x = 0` on an 800×600
canvas, `onFrame` with zero elapsed time negates `velocity_x` (the boundary
test `square_start_x <= 0` fires), so velocity is not left unchanged. -/
theorem render_zero_dt_flips_at_boundary :
    (render 800 600 0 touchState).1.velocity_x ≠ touchState.velocity_x := by
  have hstart : squareStartX 800 0 touchState = 0 := by
    unfold squareStartX renderIntegratedX touchState
    norm_num [effDim]
    show f64AsUsize ((0 : ℕ) : ℚ) = 0
    rw [f64AsUsize_natCast]
  have hcond : effDim 800 ≤ squareEndX 800 0 touchState ∨
      squareStartX 800 0 touchState ≤ 0 := Or.inr (by omega)
  rw [render_vel_x, if_pos hcond]
  unfold touchState
  norm_num

/-! ## C3: bounce reflection at exact boundary contact -/

/-- C3: if the square's far edge (rasterized size) exactly meets the canvas
boundary on an axis and the velocity component on that axis is positive,
then one `onFrame` call with any `elapsedSeconds > 0` negates that velocity
component and leaves the position on that axis clamped to at most
`max_square_pos` (`canvasDimension - size`). Stated for each axis. -/
theorem bounce_reflection (w h : ℕ) (s : AnimState) (dt : ℚ) (hdt : 0 < dt) :
    (0 < s.velocity_x →
      s.square_pos_x + (sizeFrac w : ℚ) = (effDim w : ℚ) →
      (render w h dt s).1.velocity_x = -s.velocity_x ∧
      (render w h dt s).1.square_pos_x ≤ (max_square_pos w h).1) ∧
    (0 < s.velocity_y →
      s.square_pos_y + (sizeFrac h : ℚ) = (effDim h : ℚ) →
      (render w h dt s).1.velocity_y = -s.velocity_y ∧
      (render w h dt s).1.square_pos_y ≤ (max_square_pos w h).2) := by
  constructor
  · intro hv hpos
    have hsub : ((effDim w - sizeFrac w : ℕ) : ℚ) =
        (effDim w : ℚ) - (sizeFrac w : ℚ) := by
      have := sizeFrac_le_effDim w
      push_cast [Nat.cast_sub this]
      ring
    have hgt : ((effDim w - sizeFrac w : ℕ) : ℚ) ≤ renderIntegratedX dt s := by
      unfold renderIntegratedX
      rw [hsub]
      nlinarith [mul_pos hv hdt]
    have ht : effDim w - sizeFrac w ≤ f64AsUsize (renderIntegratedX dt s) :=
      le_f64AsUsize hgt
    have hmw := sizeFrac_le_effDim w
    have hcond : effDim w ≤ squareEndX w dt s := by
      unfold squareEndX squareStartX
      omega
    constructor
    · rw [render_vel_x, if_pos (Or.inl hcond)]
    · rw [render_pos_x, if_pos (Or.inl hcond)]
      exact min_le_right _ _
  · intro hv hpos
    have hsub : ((effDim h - sizeFrac h : ℕ) : ℚ) =
        (effDim h : ℚ) - (sizeFrac h : ℚ) := by
      have := sizeFrac_le_effDim h
      push_cast [Nat.cast_sub this]
      ring
    have hgt : ((effDim h - sizeFrac h : ℕ) : ℚ) ≤ renderIntegratedY dt s := by
      unfold renderIntegratedY
      rw [hsub]
      nlinarith [mul_pos hv hdt]
    have ht : effDim h - sizeFrac h ≤ f64AsUsize (renderIntegratedY dt s) :=
      le_f64AsUsize hgt
    have hmh := sizeFrac_le_effDim h
    have hcond : effDim h ≤ squareEndY h dt s := by
      unfold squareEndY squareStartY
      omega
    constructor
    · rw [render_vel_y, if_pos (Or.inl hcond)]
    · rw [render_pos_y, if_pos (Or.inl hcond)]
      exact min_le_right _ _

/-- A state whose square's far x edge (720 + 80) exactly meets the right
boundary of an 800-wide canvas, moving right. -/
def edgeState : AnimState :=
  { square_pos_x := 720, square_pos_y := 270, velocity_x := 100,
    velocity_y := 100, cursor_x := 0, cursor_y := 0 }

/-- Witness for C3: x-axis bounce at canvas 800×600 from `edgeState` with
`elapsedSeconds = 1/2`. -/
theorem bounce_reflection_witness :
    (render 800 600 (1/2) edgeState).1.velocity_x = -edgeState.velocity_x ∧
    (render 800 600 (1/2) edgeState).1.square_pos_x ≤
      (max_square_pos 800 600).1 :=
  (bounce_reflection 800 600 edgeState (1/2) (by norm_num)).1
    (by norm_num [edgeState])
    (by norm_num [edgeState, sizeFrac, effDim])

/-! ## C4: per-frame square size -/

lemma f64AsUsize_eq {q : ℚ} {n : ℕ} (h : q = (n : ℚ)) : f64AsUsize q = n := by
  rw [h, f64AsUsize_natCast]

lemma f64AsUsize_eq_of_floor {q : ℚ} {z : ℤ} (h : ⌊q⌋ = z) :
    f64AsUsize q = z.toNat := by
  unfold f64AsUsize
  rw [h]

/-- C4 (amended): the square size a frame computes is the integer
`dim * 10 / 100` of each effective canvas dimension passed to that frame
(so it tracks resizes without re-initialization, the rasterized extent
never exceeding it); it equals exactly 10% of the dimension when the
dimension is a multiple of 10, and in general lies within one pixel below
exact 10%. -/
theorem frame_size_tracks_dims :
    (∀ w h : ℕ, ∀ dt : ℚ, ∀ s : AnimState,
      squareEndX w dt s ≤ squareStartX w dt s + sizeFrac w ∧
      squareEndY h dt s ≤ squareStartY h dt s + sizeFrac h) ∧
    (∀ n : ℕ, 10 ∣ effDim n →
      (sizeFrac n : ℚ) = (effDim n : ℚ) * (10 / 100)) ∧
    (∀ n : ℕ, (effDim n : ℚ) * (10 / 100) - 1 < (sizeFrac n : ℚ) ∧
      (sizeFrac n : ℚ) ≤ (effDim n : ℚ) * (10 / 100)) := by
  refine ⟨?_, ?_, ?_⟩
  · intro w h dt s
    exact ⟨min_le_left _ _, min_le_left _ _⟩
  · intro n hdvd
    obtain ⟨k, hk⟩ := hdvd
    have hval : sizeFrac n = k := by
      unfold sizeFrac
      omega
    rw [hval, hk]
    push_cast
    ring
  · intro n
    constructor
    · have hmod := Nat.div_add_mod (effDim n * 10) 100
      have hlt : effDim n * 10 % 100 < 100 := Nat.mod_lt _ (by norm_num)
      have hcast : (100 : ℚ) * (sizeFrac n : ℚ) +
          ((effDim n * 10 % 100 : ℕ) : ℚ) = (effDim n : ℚ) * 10 := by
        unfold sizeFrac
        exact_mod_cast hmod
      have hcast2 : ((effDim n * 10 % 100 : ℕ) : ℚ) < 100 := by
        exact_mod_cast hlt
      linarith
    · have h := sizeFrac_cast_le n
      linarith

/-- Witness for C4 at canvas width 800 (a multiple of 10): the frame size is
exactly 10% of the width. -/
theorem frame_size_tracks_dims_witness :
    (sizeFrac 800 : ℚ) = (effDim 800 : ℚ) * (10 / 100) :=
  frame_size_tracks_dims.2.1 800 ⟨80, rfl⟩

/-- Counterexample to C4 as stated: at canvas width 805 the size computed on
a frame is `sizeFrac 805 = 80`, not exactly 10% of 805 (which is 80.5). -/
theorem frame_size_not_exact_tenth :
    ¬ ((sizeFrac 805 : ℚ) = (effDim 805 : ℚ) * (10 / 100)) := by
  have h1 : sizeFrac 805 = 80 := rfl
  have h2 : effDim 805 = 805 := rfl
  rw [h1, h2]
  norm_num

/-! ## C5: initialization -/

/-- The square size `GraphicsState::new` computes (lines 158–159 of
`src/main.rs`): `(width * 10 / 100, height * 10 / 100)` in `usize`
arithmetic over the effective dimensions. -/
def initSquareSize (w h : ℕ) : ℕ × ℕ :=
  (effDim w * 10 / 100, effDim h * 10 / 100)

lemma initSquareSize_fst (w h : ℕ) :
    (initSquareSize w h).1 = effDim w * 10 / 100 := rfl

lemma initSquareSize_snd (w h : ℕ) :
    (initSquareSize w h).2 = effDim h * 10 / 100 := rfl

lemma sizeFrac_def (n : ℕ) : sizeFrac n = effDim n * 10 / 100 := rfl

lemma graphicsStateNew_pos_x (w h : ℕ) :
    (graphicsStateNew w h).square_pos_x =
      ((effDim w / 2 - effDim w * 10 / 100 / 2 : ℕ) : ℚ) := rfl

lemma graphicsStateNew_pos_y (w h : ℕ) :
    (graphicsStateNew w h).square_pos_y =
      ((effDim h / 2 - effDim h * 10 / 100 / 2 : ℕ) : ℚ) := rfl

lemma initAxis_centered (n : ℕ) :
    |((effDim n / 2 - effDim n * 10 / 100 / 2 : ℕ) : ℚ) +
      ((effDim n * 10 / 100 : ℕ) : ℚ) / 2 - (effDim n : ℚ) / 2| ≤ 1 := by
  have hmw : effDim n * 10 / 100 ≤ effDim n := sizeFrac_le_effDim n
  have hb : effDim n * 10 / 100 / 2 ≤ effDim n / 2 :=
    Nat.div_le_div_right hmw
  have hcast : ((effDim n / 2 - effDim n * 10 / 100 / 2 : ℕ) : ℚ) =
      ((effDim n / 2 : ℕ) : ℚ) - ((effDim n * 10 / 100 / 2 : ℕ) : ℚ) :=
    Nat.cast_sub hb
  have hW : ((effDim n : ℕ) : ℚ) =
      2 * ((effDim n / 2 : ℕ) : ℚ) + ((effDim n % 2 : ℕ) : ℚ) := by
    exact_mod_cast (Nat.div_add_mod (effDim n) 2).symm
  have hM : ((effDim n * 10 / 100 : ℕ) : ℚ) =
      2 * ((effDim n * 10 / 100 / 2 : ℕ) : ℚ) +
        ((effDim n * 10 / 100 % 2 : ℕ) : ℚ) := by
    exact_mod_cast (Nat.div_add_mod (effDim n * 10 / 100) 2).symm
  have he1 : ((effDim n % 2 : ℕ) : ℚ) ≤ 1 := by
    have : effDim n % 2 ≤ 1 := by omega
    exact_mod_cast this
  have he1' : (0 : ℚ) ≤ ((effDim n % 2 : ℕ) : ℚ) := Nat.cast_nonneg _
  have he2 : ((effDim n * 10 / 100 % 2 : ℕ) : ℚ) ≤ 1 := by
    have : effDim n * 10 / 100 % 2 ≤ 1 := by omega
    exact_mod_cast this
  have he2' : (0 : ℚ) ≤ ((effDim n * 10 / 100 % 2 : ℕ) : ℚ) :=
    Nat.cast_nonneg _
  rw [hcast, abs_le]
  constructor <;> linarith

/-- C5 (amended): for all canvas sizes `(W, H)` with `W, H ≥ 1`,
`initialize` computes the integer size `(W*10/100, H*10/100)` (which is
exactly `(W*0.10, H*0.10)` only when the dimensions are multiples of 10)
and a square fully inside `[0, W) × [0, H)`, centred so that
`|position.x + size.w/2 - W/2| ≤ 1` (and symmetrically for y); for an
800×600 canvas it yields size `(80, 60)` and position `(360, 270)`. -/
theorem initialize_centers_square (w h : ℕ) (hw : 1 ≤ w) (hh : 1 ≤ h) :
    (0 ≤ (graphicsStateNew w h).square_pos_x ∧
     (graphicsStateNew w h).square_pos_x + ((initSquareSize w h).1 : ℚ) ≤
       (w : ℚ) ∧
     |(graphicsStateNew w h).square_pos_x + ((initSquareSize w h).1 : ℚ) / 2 -
       (w : ℚ) / 2| ≤ 1) ∧
    (0 ≤ (graphicsStateNew w h).square_pos_y ∧
     (graphicsStateNew w h).square_pos_y + ((initSquareSize w h).2 : ℚ) ≤
       (h : ℚ) ∧
     |(graphicsStateNew w h).square_pos_y + ((initSquareSize w h).2 : ℚ) / 2 -
       (h : ℚ) / 2| ≤ 1) ∧
    initSquareSize 800 600 = (80, 60) ∧
    (graphicsStateNew 800 600).square_pos_x = 360 ∧
    (graphicsStateNew 800 600).square_pos_y = 270 := by
  have hew : effDim w = w := max_eq_left hw
  have heh : effDim h = h := max_eq_left hh
  have hx2 := (invAxis_new w).2
  have hy2 := (invAxis_new h).2
  rw [sizeFrac_def, hew] at hx2
  rw [sizeFrac_def, heh] at hy2
  have hcx := initAxis_centered w
  have hcy := initAxis_centered h
  rw [hew] at hcx
  rw [heh] at hcy
  rw [graphicsStateNew_pos_x w h, graphicsStateNew_pos_y w h,
    initSquareSize_fst w h, initSquareSize_snd w h, hew, heh]
  refine ⟨⟨Nat.cast_nonneg _, hx2, hcx⟩, ⟨Nat.cast_nonneg _, hy2, hcy⟩,
    rfl, ?_, ?_⟩
  · rw [graphicsStateNew_800_600]
  · rw [graphicsStateNew_800_600]

/-- Witness for C5 (amended) at the 800×600 canvas. -/
theorem initialize_centers_square_witness :
    (0 ≤ (graphicsStateNew 800 600).square_pos_x ∧
     (graphicsStateNew 800 600).square_pos_x +
       ((initSquareSize 800 600).1 : ℚ) ≤ (800 : ℚ) ∧
     |(graphicsStateNew 800 600).square_pos_x +
       ((initSquareSize 800 600).1 : ℚ) / 2 - (800 : ℚ) / 2| ≤ 1) ∧
    (0 ≤ (graphicsStateNew 800 600).square_pos_y ∧
     (graphicsStateNew 800 600).square_pos_y +
       ((initSquareSize 800 600).2 : ℚ) ≤ (600 : ℚ) ∧
     |(graphicsStateNew 800 600).square_pos_y +
       ((initSquareSize 800 600).2 : ℚ) / 2 - (600 : ℚ) / 2| ≤ 1) ∧
    initSquareSize 800 600 = (80, 60) ∧
    (graphicsStateNew 800 600).square_pos_x = 360 ∧
    (graphicsStateNew 800 600).square_pos_y = 270 := by
  have h := initialize_centers_square 800 600 (by norm_num) (by norm_num)
  have hc : ((800 : ℕ) : ℚ) = (800 : ℚ) := by norm_num
  have hc2 : ((600 : ℕ) : ℚ) = (600 : ℚ) := by norm_num
  rw [hc, hc2] at h
  exact h

/-- Counterexample to C5 as stated: at canvas width 805 (≥ 1), `initialize`
computes integer size 80, not `805 * 0.10 = 80.5`. -/
theorem initialize_size_not_exact_tenth :
    ¬ (((initSquareSize 805 605).1 : ℚ) = (805 : ℚ) * (10 / 100)) := by
  have h1 : (initSquareSize 805 605).1 = 80 := rfl
  rw [h1]
  norm_num

/-! ## C6: directional key presses -/

/-- C6: a directional key press moves the position by exactly 20 units along
its axis whenever no clamp applies; pressing toward an edge clamps: a step
past 0 stops at exactly 0 (so the near edge never drops below 0, from any
starting position) and a step past the far boundary stops with the far edge
(`position + dim*0.1`) exactly on the canvas edge (so the far edge never
passes it, from any starting position); from the 800×600 initial position
`(360, 270)`, one left press gives `(340, 270)` and 18 left presses clamp
`position.x` at exactly 0. -/
theorem key_press_moves_and_clamps :
    (∀ s : AnimState, 20 ≤ s.square_pos_x →
      (pressKeyA s).1.square_pos_x = s.square_pos_x - 20) ∧
    (∀ s : AnimState, s.square_pos_x ≤ 20 →
      (pressKeyA s).1.square_pos_x = 0) ∧
    (∀ s : AnimState, 0 ≤ (pressKeyA s).1.square_pos_x) ∧
    (∀ s : AnimState, 20 ≤ s.square_pos_y →
      (pressKeyW s).1.square_pos_y = s.square_pos_y - 20) ∧
    (∀ s : AnimState, s.square_pos_y ≤ 20 →
      (pressKeyW s).1.square_pos_y = 0) ∧
    (∀ s : AnimState, 0 ≤ (pressKeyW s).1.square_pos_y) ∧
    (∀ w h : ℕ, ∀ s : AnimState,
      s.square_pos_x + 20 ≤ (max_square_pos w h).1 →
      (pressKeyD w h s).1.square_pos_x = s.square_pos_x + 20) ∧
    (∀ w h : ℕ, ∀ s : AnimState,
      (max_square_pos w h).1 ≤ s.square_pos_x + 20 →
      (pressKeyD w h s).1.square_pos_x + (effDim w : ℚ) * (1 / 10) =
        (effDim w : ℚ)) ∧
    (∀ w h : ℕ, ∀ s : AnimState,
      (pressKeyD w h s).1.square_pos_x + (effDim w : ℚ) * (1 / 10) ≤
        (effDim w : ℚ)) ∧
    (∀ w h : ℕ, ∀ s : AnimState,
      s.square_pos_y + 20 ≤ (max_square_pos w h).2 →
      (pressKeyS w h s).1.square_pos_y = s.square_pos_y + 20) ∧
    (∀ w h : ℕ, ∀ s : AnimState,
      (max_square_pos w h).2 ≤ s.square_pos_y + 20 →
      (pressKeyS w h s).1.square_pos_y + (effDim h : ℚ) * (1 / 10) =
        (effDim h : ℚ)) ∧
    (∀ w h : ℕ, ∀ s : AnimState,
      (pressKeyS w h s).1.square_pos_y + (effDim h : ℚ) * (1 / 10) ≤
        (effDim h : ℚ)) ∧
    (pressKeyA (graphicsStateNew 800 600)).1.square_pos_x = 340 ∧
    (pressKeyA (graphicsStateNew 800 600)).1.square_pos_y = 270 ∧
    (runEvents 800 600 (List.replicate 18 Ev.keyA)).square_pos_x = 0 := by
  refine ⟨?_, ?_, ?_, ?_, ?_, ?_, ?_, ?_, ?_, ?_, ?_, ?_, ?_, ?_, ?_⟩
  · intro s hs
    exact max_eq_left (by linarith)
  · intro s hs
    exact max_eq_right (by linarith)
  · intro s
    exact le_max_right _ _
  · intro s hs
    exact max_eq_left (by linarith)
  · intro s hs
    exact max_eq_right (by linarith)
  · intro s
    exact le_max_right _ _
  · intro w h s hs
    exact min_eq_left hs
  · intro w h s hs
    show min (s.square_pos_x + 20) (max_square_pos w h).1 +
      (effDim w : ℚ) * (1 / 10) = (effDim w : ℚ)
    rw [min_eq_right hs, max_square_pos_fst]
    ring
  · intro w h s
    show min (s.square_pos_x + 20) (max_square_pos w h).1 +
      (effDim w : ℚ) * (1 / 10) ≤ (effDim w : ℚ)
    have hle := min_le_right (s.square_pos_x + 20) (max_square_pos w h).1
    rw [max_square_pos_fst] at hle ⊢
    linarith
  · intro w h s hs
    exact min_eq_left hs
  · intro w h s hs
    show min (s.square_pos_y + 20) (max_square_pos w h).2 +
      (effDim h : ℚ) * (1 / 10) = (effDim h : ℚ)
    rw [min_eq_right hs, max_square_pos_snd]
    ring
  · intro w h s
    show min (s.square_pos_y + 20) (max_square_pos w h).2 +
      (effDim h : ℚ) * (1 / 10) ≤ (effDim h : ℚ)
    have hle := min_le_right (s.square_pos_y + 20) (max_square_pos w h).2
    rw [max_square_pos_snd] at hle ⊢
    linarith
  · rw [graphicsStateNew_800_600]
    show max ((360 : ℚ) - 20) 0 = 340
    norm_num [max_def]
  · rw [graphicsStateNew_800_600]
    rfl
  · norm_num [runEvents, List.replicate, step, pressKeyA, graphicsStateNew,
      effDim, max_def]

/-- Witness for C6: an exact 20-unit left move from the 800×600 initial
state, and a clamped right move from the right-edge state. -/
theorem key_press_moves_and_clamps_witness :
    (pressKeyA (graphicsStateNew 800 600)).1.square_pos_x =
      (graphicsStateNew 800 600).square_pos_x - 20 ∧
    (pressKeyD 800 600 edgeState).1.square_pos_x +
      (effDim 800 : ℚ) * (1 / 10) = (effDim 800 : ℚ) :=
  ⟨key_press_moves_and_clamps.1 (graphicsStateNew 800 600)
    (by rw [graphicsStateNew_800_600]; norm_num),
   key_press_moves_and_clamps.2.2.2.2.2.2.2.1 800 600 edgeState
    (by rw [max_square_pos_fst]; norm_num [edgeState, effDim])⟩

/-! ## C7: primary click recentring -/

/-- A state whose tracked cursor is at `(100, 50)` (any square position). -/
def cursorAt100_50 : AnimState :=
  { square_pos_x := 360, square_pos_y := 270, velocity_x := 100,
    velocity_y := 100, cursor_x := 100, cursor_y := 50 }

/-- A state whose tracked cursor is at the fractional position `(100.5, 50)`. -/
def cursorAtHalf : AnimState :=
  { square_pos_x := 360, square_pos_y := 270, velocity_x := 100,
    velocity_y := 100, cursor_x := 201 / 2, cursor_y := 50 }

/-- C7 (amended): a primary click sets
`position = trunc(cursor) - size/2` — the tracked cursor is first truncated
by Rust's saturating `f64 → usize` cast, then the integer size's half is
subtracted — with no clamping applied to the result: a click with tracked
cursor `(100, 50)` and size `(80, 60)` yields position `(60, 20)`, and a
click with the cursor at the origin yields the out-of-canvas position
`(-40, -30)`. -/
theorem click_recenters_on_truncated_cursor :
    (∀ w h : ℕ, ∀ s : AnimState,
      (mouseLeftClick w h s).1.square_pos_x =
        (f64AsUsize s.cursor_x : ℚ) - ((effDim w * 10 / 100 : ℕ) : ℚ) / 2 ∧
      (mouseLeftClick w h s).1.square_pos_y =
        (f64AsUsize s.cursor_y : ℚ) - ((effDim h * 10 / 100 : ℕ) : ℚ) / 2) ∧
    ((mouseLeftClick 800 600 cursorAt100_50).1.square_pos_x = 60 ∧
     (mouseLeftClick 800 600 cursorAt100_50).1.square_pos_y = 20) ∧
    ((mouseLeftClick 800 600 (graphicsStateNew 800 600)).1.square_pos_x =
        -40 ∧
     (mouseLeftClick 800 600 (graphicsStateNew 800 600)).1.square_pos_y =
        -30) := by
  refine ⟨fun w h s => ⟨rfl, rfl⟩, ⟨?_, ?_⟩, ⟨?_, ?_⟩⟩
  · show (f64AsUsize cursorAt100_50.cursor_x : ℚ) -
      ((effDim 800 * 10 / 100 : ℕ) : ℚ) / 2 = 60
    rw [f64AsUsize_eq (n := 100) (by norm_num [cursorAt100_50])]
    norm_num [effDim]
  · show (f64AsUsize cursorAt100_50.cursor_y : ℚ) -
      ((effDim 600 * 10 / 100 : ℕ) : ℚ) / 2 = 20
    rw [f64AsUsize_eq (n := 50) (by norm_num [cursorAt100_50])]
    norm_num [effDim]
  · show (f64AsUsize (graphicsStateNew 800 600).cursor_x : ℚ) -
      ((effDim 800 * 10 / 100 : ℕ) : ℚ) / 2 = -40
    rw [f64AsUsize_eq (n := 0) (by rw [graphicsStateNew_800_600]; norm_num)]
    norm_num [effDim]
  · show (f64AsUsize (graphicsStateNew 800 600).cursor_y : ℚ) -
      ((effDim 600 * 10 / 100 : ℕ) : ℚ) / 2 = -30
    rw [f64AsUsize_eq (n := 0) (by rw [graphicsStateNew_800_600]; norm_num)]
    norm_num [effDim]

/-- Counterexample to C7 as stated: with the tracked cursor at the
fractional position `(100.5, 50)` on an 800×600 canvas (size `(80, 60)`),
the click puts the square at `x = 100 - 40 = 60`, not at
`cursor.x - size.w/2 = 60.5`: the code truncates the cursor to an integer
first. -/
theorem click_not_exact_cursor :
    (mouseLeftClick 800 600 cursorAtHalf).1.square_pos_x ≠
      cursorAtHalf.cursor_x - ((effDim 800 * 10 / 100 : ℕ) : ℚ) / 2 := by
  have hl : (mouseLeftClick 800 600 cursorAtHalf).1.square_pos_x = 60 := by
    show (f64AsUsize cursorAtHalf.cursor_x : ℚ) -
      ((effDim 800 * 10 / 100 : ℕ) : ℚ) / 2 = 60
    rw [f64AsUsize_eq_of_floor (z := 100) (by norm_num [cursorAtHalf])]
    have ht : (100 : ℤ).toNat = 100 := rfl
    rw [ht]
    norm_num [effDim]
  rw [hl]
  norm_num [cursorAtHalf, effDim]

/-! ## C8: velocity is mutated only by bounce reflection -/

/-- The velocity magnitude invariant: both components have absolute
value 100, their initial magnitude. -/
def VelInv (s : AnimState) : Prop :=
  |s.velocity_x| = 100 ∧ |s.velocity_y| = 100

lemma velInv_step (w h : ℕ) (e : Ev) {s : AnimState} (hs : VelInv s) :
    VelInv (step w h e s).1 := by
  cases e with
  | keyW => exact hs
  | keyA => exact hs
  | keyS => exact hs
  | keyD => exact hs
  | mouseLeft => exact hs
  | cursorMoved px py => exact hs
  | frame dt =>
      constructor
      · show |(render w h dt s).1.velocity_x| = 100
        rw [render_vel_x]
        by_cases hc : effDim w ≤ squareEndX w dt s ∨ squareStartX w dt s ≤ 0
        · rw [if_pos hc, abs_neg]
          exact hs.1
        · rw [if_neg hc]
          exact hs.1
      · show |(render w h dt s).1.velocity_y| = 100
        rw [render_vel_y]
        by_cases hc : effDim h ≤ squareEndY h dt s ∨ squareStartY h dt s ≤ 0
        · rw [if_pos hc, abs_neg]
          exact hs.2
        · rw [if_neg hc]
          exact hs.2

lemma velInv_foldl (w h : ℕ) (evs : List Ev) :
    ∀ s : AnimState, VelInv s →
      VelInv (evs.foldl (fun s e => (step w h e s).1) s) := by
  induction evs with
  | nil => intro s hs; simpa using hs
  | cons e rest ih =>
      intro s hs
      rw [List.foldl_cons]
      exact ih _ (velInv_step w h e hs)

/-- C8: velocity is mutated only by the bounce reflection rule: every
discrete input event (key press, cursor move, primary click) leaves both
velocity components unchanged; each `onFrame` call either preserves a
velocity component or negates it; hence the absolute value of each velocity
component stays at its initial value 100 in every reachable state. -/
theorem velocity_only_bounce :
    (∀ w h : ℕ, ∀ e : Ev, ∀ s : AnimState, (∀ dt : ℚ, e ≠ Ev.frame dt) →
      (step w h e s).1.velocity_x = s.velocity_x ∧
      (step w h e s).1.velocity_y = s.velocity_y) ∧
    (∀ w h : ℕ, ∀ dt : ℚ, ∀ s : AnimState,
      ((render w h dt s).1.velocity_x = s.velocity_x ∨
       (render w h dt s).1.velocity_x = -s.velocity_x) ∧
      ((render w h dt s).1.velocity_y = s.velocity_y ∨
       (render w h dt s).1.velocity_y = -s.velocity_y)) ∧
    (∀ w h : ℕ, ∀ evs : List Ev,
      |(runEvents w h evs).velocity_x| = 100 ∧
      |(runEvents w h evs).velocity_y| = 100) := by
  refine ⟨?_, ?_, ?_⟩
  · intro w h e s hne
    cases e with
    | keyW => exact ⟨rfl, rfl⟩
    | keyA => exact ⟨rfl, rfl⟩
    | keyS => exact ⟨rfl, rfl⟩
    | keyD => exact ⟨rfl, rfl⟩
    | mouseLeft => exact ⟨rfl, rfl⟩
    | cursorMoved px py => exact ⟨rfl, rfl⟩
    | frame dt => exact absurd rfl (hne dt)
  · intro w h dt s
    constructor
    · rw [render_vel_x]
      by_cases hc : effDim w ≤ squareEndX w dt s ∨ squareStartX w dt s ≤ 0
      · rw [if_pos hc]
        exact Or.inr rfl
      · rw [if_neg hc]
        exact Or.inl rfl
    · rw [render_vel_y]
      by_cases hc : effDim h ≤ squareEndY h dt s ∨ squareStartY h dt s ≤ 0
      · rw [if_pos hc]
        exact Or.inr rfl
      · rw [if_neg hc]
        exact Or.inl rfl
  · intro w h evs
    refine velInv_foldl w h evs (graphicsStateNew w h) ⟨?_, ?_⟩
    · show |(100 : ℚ)| = 100
      norm_num
    · show |(100 : ℚ)| = 100
      norm_num

/-- Witness for C8: a key-A press on the initial 800×600 state leaves both
velocity components unchanged. -/
theorem velocity_only_bounce_witness :
    (step 800 600 Ev.keyA (graphicsStateNew 800 600)).1.velocity_x =
      (graphicsStateNew 800 600).velocity_x ∧
    (step 800 600 Ev.keyA (graphicsStateNew 800 600)).1.velocity_y =
      (graphicsStateNew 800 600).velocity_y :=
  velocity_only_bounce.1 800 600 Ev.keyA (graphicsStateNew 800 600)
    (fun dt => Ev.noConfusion)

/-! ## C9: cursor move updates only the tracked cursor -/

/-- C9: a cursor-moved event updates only the tracked cursor position: the
square's position, velocity, and everything else in the animator state are
unchanged, and no redraw is requested. -/
theorem cursor_move_updates_only_cursor (s : AnimState) (px py : ℚ) :
    (cursorMovedEvent px py s).1.square_pos_x = s.square_pos_x ∧
    (cursorMovedEvent px py s).1.square_pos_y = s.square_pos_y ∧
    (cursorMovedEvent px py s).1.velocity_x = s.velocity_x ∧
    (cursorMovedEvent px py s).1.velocity_y = s.velocity_y ∧
    (cursorMovedEvent px py s).1.cursor_x = px ∧
    (cursorMovedEvent px py s).1.cursor_y = py ∧
    (cursorMovedEvent px py s).2 = false :=
  ⟨rfl, rfl, rfl, rfl, rfl, rfl, rfl⟩

/-! ## C10: rasterization writes stay inside the pixel buffer -/

/-- C10: for any state (including unclamped post-click positions and
positions outside the canvas before the bounce clamp) the rasterization
loop of `onFrame` writes only indices `y * width + x` with
`square_start ≤ x < square_end ≤ width` (likewise for y), all of which lie
inside the `width * height` pixel buffer. -/
theorem raster_writes_in_bounds (w h : ℕ) (dt : ℚ) (s : AnimState)
    (x y : ℕ)
    (hx1 : squareStartX w dt s ≤ x) (hx2 : x < squareEndX w dt s)
    (hy1 : squareStartY h dt s ≤ y) (hy2 : y < squareEndY h dt s) :
    squareEndX w dt s ≤ effDim w ∧ squareEndY h dt s ≤ effDim h ∧
    y * effDim w + x < effDim w * effDim h := by
  have hex : squareEndX w dt s ≤ effDim w := min_le_right _ _
  have hey : squareEndY h dt s ≤ effDim h := min_le_right _ _
  refine ⟨hex, hey, ?_⟩
  have hxW : x < effDim w := lt_of_lt_of_le hx2 hex
  have hyH : y < effDim h := lt_of_lt_of_le hy2 hey
  calc y * effDim w + x < y * effDim w + effDim w := by omega
    _ = (y + 1) * effDim w := by ring
    _ ≤ effDim h * effDim w := Nat.mul_le_mul_right _ hyH
    _ = effDim w * effDim h := Nat.mul_comm _ _

lemma squareStartX_init : squareStartX 800 0 (graphicsStateNew 800 600) = 360 := by
  unfold squareStartX renderIntegratedX
  rw [graphicsStateNew_800_600]
  norm_num [effDim]
  rw [f64AsUsize_eq (n := 360) (by norm_num)]
  omega

lemma squareEndX_init : squareEndX 800 0 (graphicsStateNew 800 600) = 440 := by
  unfold squareEndX
  rw [squareStartX_init]
  norm_num [sizeFrac, effDim]

lemma squareStartY_init : squareStartY 600 0 (graphicsStateNew 800 600) = 270 := by
  unfold squareStartY renderIntegratedY
  rw [graphicsStateNew_800_600]
  norm_num [effDim]
  rw [f64AsUsize_eq (n := 270) (by norm_num)]
  omega

lemma squareEndY_init : squareEndY 600 0 (graphicsStateNew 800 600) = 330 := by
  unfold squareEndY
  rw [squareStartY_init]
  norm_num [sizeFrac, effDim]

/-- Witness for C10: the top-left pixel of the square drawn for the initial
800×600 state lands inside the 800×600 buffer. -/
theorem raster_writes_in_bounds_witness :
    squareEndX 800 0 (graphicsStateNew 800 600) ≤ effDim 800 ∧
    squareEndY 600 0 (graphicsStateNew 800 600) ≤ effDim 600 ∧
    270 * effDim 800 + 360 < effDim 800 * effDim 600 :=
  raster_writes_in_bounds 800 600 0 (graphicsStateNew 800 600) 360 270
    (by rw [squareStartX_init]) (by rw [squareEndX_init]; norm_num)
    (by rw [squareStartY_init]) (by rw [squareEndY_init]; norm_num)
